import Mathlib

/-!
# Verification of the manga_check volume-reconciliation core (src/app.py)

Shallow embedding of the algorithmic core of `src/app.py`:
* `is_past` — the date classifier (app.py lines 63–89);
* `get_books` — the per-series volume resolver (app.py lines 93–116);
* the search loop of `main` (app.py lines 302–328);
* `update_spreadsheet` — the write-back step (app.py lines 120–141).

Strings are modelled as Lean `String`s (lists of unicode code points); the
digit character class of the Python regexes and of `int`/`strptime` is
modelled as the ASCII digits `0`–`9`.  Python exceptions are modelled by the
`Except` monad with the error type `PyErr`.
-/

namespace MangaCheck

/-- The distinguishable `ValueError`/`IndexError` exits of the source. -/
inductive PyErr where
  /-- the `ValueError` raised at app.py line 89, carrying the raw date string -/
  | formatError (raw : String)
  /-- a `ValueError` raised inside `strptime` / `datetime` construction -/
  | strptimeError
  /-- the `ValueError` raised by `int()` on a malformed literal -/
  | intError
  /-- an `IndexError` from list indexing -/
  | indexError
  deriving DecidableEq

deriving instance DecidableEq for Except

/-! ## String primitives (models of the Python string operations used) -/

/-- Holds (`listPref p s = true`) iff the list `p` is an initial segment of `s`. -/
def listPref : List Char → List Char → Bool
  | [], _ => true
  | _ :: _, [] => false
  | a :: as, b :: bs => a == b && listPref as bs

/-- Holds (`containsSub p s = true`) iff `p` occurs contiguously somewhere in
`s` (model of Python's `p in s` on strings). -/
def containsSub (p : List Char) : List Char → Bool
  | [] => listPref p []
  | c :: rest => listPref p (c :: rest) || containsSub p rest

/-- Model of Python's `target in title` containment test on strings
(`search_title in book["title"]`, app.py line 109): true iff `matchTarget`
occurs in `catalogTitle` as a contiguous, case-sensitive substring. -/
def strContains (catalogTitle matchTarget : String) : Bool :=
  containsSub matchTarget.data catalogTitle.data

/-- Maximal run of ASCII digits at the head of the list, with the rest
(model of what `\d*` greedily consumes at the current regex position). -/
def readDigits : List Char → List Char × List Char
  | [] => ([], [])
  | c :: cs =>
    if c.isDigit then
      let (d, r) := readDigits cs
      (c :: d, r)
    else ([], c :: cs)

/-- Numeric value of a run of ASCII digit characters. -/
def digitsToNat (l : List Char) : Nat :=
  l.foldl (fun a c => 10 * a + (c.toNat - 48)) 0

/-! ## Date model -/

/-- A calendar date as Python's `datetime.date` (year, month, day). -/
structure PyDate where
  year : Nat
  month : Nat
  day : Nat
  deriving DecidableEq

/-- Python `date` comparison: lexicographic on (year, month, day). -/
def dateLt (a b : PyDate) : Bool :=
  a.year < b.year ||
    (a.year == b.year &&
      (a.month < b.month || (a.month == b.month && a.day < b.day)))

/-- Gregorian leap-year rule, as implemented by Python's `datetime`. -/
def isLeap (y : Nat) : Bool :=
  y % 4 == 0 && (y % 100 != 0 || y % 400 == 0)

/-- Number of days of month `m` of year `y` (Python `calendar` rule). -/
def daysInMonth (y m : Nat) : Nat :=
  if m = 2 then (if isLeap y then 29 else 28)
  else if m = 4 ∨ m = 6 ∨ m = 9 ∨ m = 11 then 30
  else 31

/-- Condition under which `strptime("%Y年%m月%d日")` plus `datetime` range
validation succeeds on the regex-matched text: the components must form a
real calendar date. -/
def validDate (y m d : Nat) : Prop :=
  1 ≤ y ∧ 1 ≤ m ∧ m ≤ 12 ∧ 1 ≤ d ∧ d ≤ daysInMonth y m

instance (y m d : Nat) : Decidable (validDate y m d) := by
  unfold validDate; infer_instance

/-- Validity of a year-month pair for `strptime("%Y年%m月")`
(the day defaults to 1, which is always in range). -/
def validMonth (y m : Nat) : Prop :=
  1 ≤ y ∧ 1 ≤ m ∧ m ≤ 12

instance (y m : Nat) : Decidable (validMonth y m) := by
  unfold validMonth; infer_instance

/-! ## The two date regexes of `is_past` -/

/-- Model of `re.match(r"(\d{4}年\d{1,2}月\d{1,2}日)", date_str)` (app.py
line 71): anchored at the start, trailing text ignored.  Returns the numeric
(year, month, day) of the matched group when the pattern matches. -/
def matchFullDate (s : List Char) : Option (Nat × Nat × Nat) :=
  let (ys, r1) := readDigits s
  if ys.length = 4 then
    match r1 with
    | '年' :: r2 =>
      let (ms, r3) := readDigits r2
      if ms.length = 1 ∨ ms.length = 2 then
        match r3 with
        | '月' :: r4 =>
          let (ds, r5) := readDigits r4
          if ds.length = 1 ∨ ds.length = 2 then
            match r5 with
            | '日' :: _ => some (digitsToNat ys, digitsToNat ms, digitsToNat ds)
            | _ => none
          else none
        | _ => none
      else none
    | _ => none
  else none

/-- Model of `re.match(r"(\d{4}年\d{1,2}月)", date_str)` (app.py line 78):
anchored at the start, trailing text (e.g. 「下旬」) ignored. -/
def matchMonthOnly (s : List Char) : Option (Nat × Nat) :=
  let (ys, r1) := readDigits s
  if ys.length = 4 then
    match r1 with
    | '年' :: r2 =>
      let (ms, r3) := readDigits r2
      if ms.length = 1 ∨ ms.length = 2 then
        match r3 with
        | '月' :: _ => some (digitsToNat ys, digitsToNat ms)
        | _ => none
      else none
    | _ => none
  else none

/-! ## The date classifier `is_past` (app.py lines 63–89) -/

/-- Lines 70–89 of app.py, parametric in the local variable `today`.
Full-date branch: parse and compare with strict `<` on dates.
Month-only branch: compare the composite `year*100 + month`.
Neither matched: raise `ValueError` carrying the raw string.
A regex match whose components are out of range (e.g. month 13) makes
`strptime`/`datetime` raise a different `ValueError`. -/
def is_past_core (today : PyDate) (date_str : String) : Except PyErr Bool :=
  match matchFullDate date_str.data with
  | some (y, m, d) =>
    if validDate y m d then
      .ok (dateLt ⟨y, m, d⟩ today)
    else .error .strptimeError
  | none =>
    match matchMonthOnly date_str.data with
    | some (y, m) =>
      if validMonth y m then
        .ok (decide (y * 100 + m < today.year * 100 + today.month))
      else .error .strptimeError
    | none => .error (.formatError date_str)

/-- The classifier `is_past` as in the source: `today` is the hardcoded `datetime(2026, 5, 1)`
of app.py line 64 (the `datetime.now()` alternative on line 66 is commented
out). -/
def is_past (date_str : String) : Except PyErr Bool :=
  is_past_core ⟨2026, 5, 1⟩ date_str

/-- One run of `is_past` under an ambient wall clock reading `now`: the body
never consults the clock (line 66 is disabled), so `now` is ignored. -/
def is_past_run (_now : PyDate) (date_str : String) : Except PyErr Bool :=
  is_past date_str

/-! ## Python `str.replace` (app.py line 105) -/

/-- Model of Python `s.replace(pat, rep)` for a nonempty `pat`: scan left to
right, replacing every non-overlapping occurrence of `pat` by `rep`. -/
def pyReplace (pat rep : List Char) : List Char → List Char
  | [] => []
  | c :: rest =>
    if pat ≠ [] ∧ listPref pat (c :: rest) then
      rep ++ pyReplace pat rep (List.drop (pat.length - 1) rest)
    else c :: pyReplace pat rep rest
termination_by s => s.length
decreasing_by
  · simp only [List.length_drop, List.length_cons]; omega
  · simp only [List.length_cons]; omega

/-- The greedy left-to-right decomposition of `s` along occurrences of `pat`:
the chunks between the occurrences that `pyReplace` replaces. -/
def splitOnPat (pat : List Char) : List Char → List (List Char)
  | [] => [[]]
  | c :: rest =>
    if pat ≠ [] ∧ listPref pat (c :: rest) then
      [] :: splitOnPat pat (List.drop (pat.length - 1) rest)
    else
      match splitOnPat pat rest with
      | [] => [[c]]
      | chunk :: more => (c :: chunk) :: more
termination_by s => s.length
decreasing_by
  · simp only [List.length_drop, List.length_cons]; omega
  · simp only [List.length_cons]; omega

/-- Interleave `sep` between consecutive chunks and concatenate. -/
def joinWith (sep : List Char) : List (List Char) → List Char
  | [] => []
  | [c] => c
  | c :: cs => c ++ sep ++ joinWith sep cs

/-- Model of `search_title.replace("num", str(num))` (app.py line 105): every
occurrence of the placeholder token `"num"` is replaced by the decimal string
of the next volume number. -/
def buildMatchTarget (pattern : String) (nextVolume : Int) : String :=
  ⟨pyReplace "num".data (toString nextVolume).data pattern.data⟩

/-! ## Python `int()` on strings (app.py line 104) -/

/-- Model of Python `int(s)` on an ASCII string: optional surrounding spaces,
an optional sign, then a nonempty run of decimal digits; anything else —
in particular the empty string — raises `ValueError`. -/
def pyInt (s : String) : Except PyErr Int :=
  let l := ((s.data.dropWhile (· == ' ')).reverse.dropWhile (· == ' ')).reverse
  match l with
  | '-' :: ds =>
    if ds ≠ [] ∧ ds.all Char.isDigit then .ok (-(digitsToNat ds : Int))
    else .error .intError
  | '+' :: ds =>
    if ds ≠ [] ∧ ds.all Char.isDigit then .ok (digitsToNat ds : Int)
    else .error .intError
  | ds =>
    if ds ≠ [] ∧ ds.all Char.isDigit then .ok (digitsToNat ds : Int)
    else .error .intError

/-! ## Catalog data model (app.py lines 99–115) -/

/-- One catalog item's inner `Item` dict: the fields read by `get_books`. -/
structure Book where
  title : String
  isbn : String
  salesDate : String
  deriving DecidableEq

/-- One element of the response's `Items` list: `{"Item": {...}}`. -/
structure BookItem where
  item : Book
  deriving DecidableEq

/-- The observable part of the HTTP response consumed by `get_books`:
the status code and the two JSON fields it reads.  `pageCount` and `items`
are `none` when absent from the JSON (`data.get` defaults apply). -/
structure CatalogResponse where
  status_code : Nat
  pageCount : Option Int
  items : Option (List BookItem)
  deriving DecidableEq

/-- The dict returned by `get_books` on a hit (app.py lines 110–115). -/
structure BookResult where
  title : String
  volume : String
  isbn : String
  sales_date : String
  deriving DecidableEq

/-! ## The volume resolver `get_books` (app.py lines 93–116) -/

/-- The `for book_item in books:` loop of `get_books` (app.py lines 106–115):
first item that classifies as past and whose title contains `search_title`
wins; an exception from `is_past` propagates. -/
def scanBooks (search_title : String) (vol : String) :
    List BookItem → Except PyErr (Option BookResult)
  | [] => .ok none
  | bi :: rest =>
    match is_past bi.item.salesDate with
    | .error e => .error e
    | .ok b =>
      if b then
        if strContains bi.item.title search_title then
          .ok (some ⟨bi.item.title, vol, bi.item.isbn, bi.item.salesDate⟩)
        else scanBooks search_title vol rest
      else scanBooks search_title vol rest

/-- The resolver `get_books` (app.py lines 93–116).  The transport (`params["page"] = 1`
and `requests.get`) is external; `resp` is its result.  A non-200 status
returns `None`.  `pageCount` defaults to 1 and `Items` to `[]` when absent.
When `page_count >= 1`, `num` is re-bound to `int(num) + 1` (raising
`ValueError` on a malformed volume string), the match target is built by
substituting `"num"`, and the items are scanned in response order.
The argument `no` of the source is unused. -/
def get_books (resp : CatalogResponse) (search_title : String) (num : String)
    (_no : Nat) : Except PyErr (Option BookResult) :=
  if resp.status_code ≠ 200 then .ok none
  else
    let page_count := resp.pageCount.getD 1
    let books := resp.items.getD []
    if page_count ≥ 1 then
      match pyInt num with
      | .error e => .error e
      | .ok n =>
        scanBooks (buildMatchTarget search_title (n + 1)) (toString (n + 1)) books
    else .ok none

/-! ## The search loop of `main` (app.py lines 302–328) -/

/-- One element of the `data` list built at app.py lines 277–281. -/
structure SeriesItem where
  title : String
  search_title : String
  number : String
  deriving DecidableEq

/-- One element of the `results` list appended at app.py lines 318–325.
`volume` is the dict entry keyed `"巻数"`, `result_title` the one keyed
`"作品名"`, `sales_date` the one keyed `"出版日"`. -/
structure ResultEntry where
  original_index : Nat
  original_title : String
  result_title : String
  volume : String
  sales_date : String
  isbn : String
  deriving DecidableEq

/-- The dict literal appended to `results` for a hit (app.py lines 318–325). -/
def mkEntry (i : Nat) (item : SeriesItem) (r : BookResult) : ResultEntry :=
  ⟨i, item.title, r.title, r.volume, r.sales_date, r.isbn⟩

/-- The observable outcome of the `for i, item in enumerate(data):` loop:
the accumulated `results` list, the indices reported via `st.error` in the
`except` branch, and the indices shown by the per-item progress status. -/
structure RunOutcome where
  results : List ResultEntry
  errors : List Nat
  attempts : List Nat
  deriving DecidableEq

/-- The search loop of `main` (app.py lines 302–328), started at index `i`.
`fetch j` is the catalog response the transport returns for the series at
index `j`.  Any exception from `get_books` is caught, reported, and the loop
continues with the next series. -/
def searchLoop (fetch : Nat → CatalogResponse) : Nat → List SeriesItem → RunOutcome
  | _, [] => ⟨[], [], []⟩
  | i, item :: rest =>
    let tail := searchLoop fetch (i + 1) rest
    match get_books (fetch i) item.search_title item.number 0 with
    | .error _ => ⟨tail.results, i :: tail.errors, i :: tail.attempts⟩
    | .ok none => ⟨tail.results, tail.errors, i :: tail.attempts⟩
    | .ok (some r) => ⟨mkEntry i item r :: tail.results, tail.errors, i :: tail.attempts⟩

/-- The whole reconciliation pass over `data` (app.py line 304). -/
def runSearch (fetch : Nat → CatalogResponse) (data : List SeriesItem) : RunOutcome :=
  searchLoop fetch 0 data

/-! ## The write-back step `update_spreadsheet` (app.py lines 120–141) -/

/-- A `worksheet.update_cell(row, col, value)` call (app.py line 134). -/
structure CellWrite where
  row : Nat
  col : Nat
  value : String
  deriving DecidableEq

/-- The write-back `update_spreadsheet` (app.py lines 120–141) as the sequence of
`update_cell` calls it issues, in order.  For each result entry, the original
row is fetched by index (`IndexError` if out of range); a write to column 3
of row `original_index + 2` is issued iff the new volume differs from the
stored one under string comparison. -/
def update_spreadsheet (original_data : List SeriesItem) :
    List ResultEntry → Except PyErr (List CellWrite)
  | [] => .ok []
  | r :: rs =>
    match original_data[r.original_index]? with
    | none => .error .indexError
    | some item =>
      match update_spreadsheet original_data rs with
      | .error e => .error e
      | .ok ws =>
        if r.volume ≠ item.number then
          .ok (⟨r.original_index + 2, 3, r.volume⟩ :: ws)
        else .ok ws

/-- Whether `update_spreadsheet` writes for entry `r` against `data`
(the `str(new_volume) != str(current_volume)` test, app.py line 131). -/
def volumeChanged (data : List SeriesItem) (r : ResultEntry) : Bool :=
  match data[r.original_index]? with
  | some item => r.volume != item.number
  | none => false

/-- The writes `update_spreadsheet` issues when every index is in range. -/
def expectedWrites (data : List SeriesItem) (results : List ResultEntry) :
    List CellWrite :=
  (results.filter (volumeChanged data)).map
    (fun r => ⟨r.original_index + 2, 3, r.volume⟩)

/-- Overwrite the `number` field of the row at index `idx` (what a write to
column 3 of spreadsheet row `idx + 2` does to the source table). -/
def setVolume : List SeriesItem → Nat → String → List SeriesItem
  | [], _, _ => []
  | x :: xs, 0, v => ⟨x.title, x.search_title, v⟩ :: xs
  | x :: xs, n + 1, v => x :: setVolume xs n v

/-- Apply a sequence of cell writes to the source table: a write to column 3
of row `row` sets the volume of the row at index `row - 2`; writes to other
columns do not touch the three tracked columns. -/
def applyWrites (data : List SeriesItem) (ws : List CellWrite) : List SeriesItem :=
  ws.foldl (fun d w => if w.col = 3 then setVolume d (w.row - 2) w.value else d) data

/-! ## Specification-side helper predicates and test fixtures -/

/-- Returns `true` iff the classifier returned a boolean (raised no exception). -/
def isOkResult (x : Except PyErr Bool) : Bool :=
  match x with
  | .ok _ => true
  | .error _ => false

/-- A catalog item qualifies: its sales date classifies as past and its
title contains the match target. -/
def isHit (target : String) (bi : BookItem) : Bool :=
  match is_past bi.item.salesDate with
  | .ok true => strContains bi.item.title target
  | _ => false

/-- The list `[i, i+1, ..., i+n-1]`: the expected sequence of attempted indices. -/
def idxRange : Nat → Nat → List Nat
  | _, 0 => []
  | i, n + 1 => i :: idxRange (i + 1) n

/-- Fixture: the catalog item `{title: "Foo5 extra", salesDate: "2020年1月1日"}`
of spec §8 property 5 — past, but not containing the target `"Foo4"`. -/
def itemA : BookItem := ⟨⟨"Foo5 extra", "isbnA", "2020年1月1日"⟩⟩

/-- Fixture: the catalog item `{title: "Foo4", salesDate: "2020年1月1日"}` of
spec §8 property 5 — past and containing the target `"Foo4"`. -/
def itemB : BookItem := ⟨⟨"Foo4", "isbnB", "2020年1月1日"⟩⟩

/-- Fixture: a successful response listing `itemA` before `itemB`. -/
def respW : CatalogResponse := ⟨200, some 1, some [itemA, itemB]⟩

/-- Fixture: three tracked series; the second has an empty volume string, so
its `get_books` call raises (`int("")`). -/
def dataW : List SeriesItem :=
  [⟨"Foo", "Foonum", "3"⟩, ⟨"Bar", "Barnum", ""⟩, ⟨"Baz", "Baznum", "1"⟩]

/-- Fixture: the transport for `dataW` — a hit for the first series, an
empty page-1 for the second, a month-only-dated hit for the third. -/
def fetchW : Nat → CatalogResponse
  | 0 => respW
  | 1 => ⟨200, some 1, some []⟩
  | _ => ⟨200, some 1, some [⟨⟨"Baz2", "isbnC", "2025年3月"⟩⟩]⟩

/-- Fixture: the result entries `runSearch fetchW dataW` produces. -/
def resultsW : List ResultEntry :=
  [⟨0, "Foo", "Foo4", "4", "2020年1月1日", "isbnB"⟩,
   ⟨2, "Baz", "Baz2", "2", "2025年3月", "isbnC"⟩]

/-! ## General lemmas -/

theorem listPref_iff (p s : List Char) : listPref p s = true ↔ ∃ t, s = p ++ t := by
  induction p generalizing s with
  | nil => simp [listPref]
  | cons a as ih =>
    cases s with
    | nil => simp [listPref]
    | cons b bs =>
      simp only [listPref, Bool.and_eq_true, beq_iff_eq, ih]
      constructor
      · rintro ⟨rfl, t, rfl⟩; exact ⟨t, rfl⟩
      · rintro ⟨t, h⟩
        cases h
        exact ⟨rfl, t, rfl⟩

theorem containsSub_iff (p s : List Char) :
    containsSub p s = true ↔ ∃ l r, s = l ++ p ++ r := by
  induction s with
  | nil =>
    simp only [containsSub, listPref_iff]
    constructor
    · rintro ⟨t, h⟩; exact ⟨[], t, h⟩
    · rintro ⟨l, r, h⟩
      rcases l with _ | ⟨c, l⟩
      · exact ⟨r, h⟩
      · simp at h
  | cons c rest ih =>
    simp only [containsSub, Bool.or_eq_true, listPref_iff, ih]
    constructor
    · rintro (⟨t, h⟩ | ⟨l, r, h⟩)
      · exact ⟨[], t, h⟩
      · exact ⟨c :: l, r, by simp [h]⟩
    · rintro ⟨l, r, h⟩
      rcases l with _ | ⟨b, l⟩
      · exact Or.inl ⟨r, h⟩
      · right
        injection h with h1 h2
        exact ⟨l, r, h2⟩

theorem splitOnPat_ne_nil (pat s : List Char) : splitOnPat pat s ≠ [] := by
  induction s using splitOnPat.induct pat with
  | case1 => simp [splitOnPat]
  | case2 c rest h ih =>
    rw [splitOnPat, if_pos h]
    simp
  | case3 c rest h hrest ih =>
    rw [splitOnPat, if_neg h, hrest]
    simp
  | case4 c rest h chunk more hrest ih =>
    rw [splitOnPat, if_neg h, hrest]
    simp

theorem joinWith_cons (sep c : List Char) (l : List (List Char)) (h : l ≠ []) :
    joinWith sep (c :: l) = c ++ sep ++ joinWith sep l := by
  cases l with
  | nil => exact absurd rfl h
  | cons x xs => rfl

theorem joinWith_cons₂ (sep a b : List Char) (t : List (List Char)) :
    joinWith sep (a :: b :: t) = a ++ sep ++ joinWith sep (b :: t) := rfl

theorem joinWith_splitOnPat (pat s : List Char) :
    joinWith pat (splitOnPat pat s) = s := by
  induction s using splitOnPat.induct pat with
  | case1 => simp [splitOnPat, joinWith]
  | case2 c rest h ih =>
    obtain ⟨hne, hpref⟩ := h
    obtain ⟨t, ht⟩ := (listPref_iff pat (c :: rest)).1 hpref
    rw [splitOnPat, if_pos ⟨hne, hpref⟩,
      joinWith_cons pat [] _ (splitOnPat_ne_nil pat _)]
    have hdrop : List.drop (pat.length - 1) rest = t := by
      cases pat with
      | nil => exact absurd rfl hne
      | cons p ps =>
        injection ht with h1 h2
        simp [h2]
    rw [hdrop] at ih ⊢
    simpa [ih] using ht.symm
  | case3 c rest h hrest ih => exact absurd hrest (splitOnPat_ne_nil pat rest)
  | case4 c rest h chunk more hrest ih =>
    rw [splitOnPat, if_neg h, hrest]
    rw [hrest] at ih
    cases more with
    | nil =>
      simp only [joinWith] at ih ⊢
      rw [ih]
    | cons m ms =>
      simp only [joinWith_cons₂, List.cons_append, List.append_assoc] at ih ⊢
      rw [ih]

theorem pyReplace_eq_joinWith (pat rep s : List Char) :
    pyReplace pat rep s = joinWith rep (splitOnPat pat s) := by
  induction s using splitOnPat.induct pat with
  | case1 => simp [splitOnPat, pyReplace, joinWith]
  | case2 c rest h ih =>
    rw [splitOnPat, if_pos h, pyReplace, if_pos h,
      joinWith_cons rep [] _ (splitOnPat_ne_nil pat _), ih]
    simp
  | case3 c rest h hrest ih => exact absurd hrest (splitOnPat_ne_nil pat rest)
  | case4 c rest h chunk more hrest ih =>
    rw [splitOnPat, if_neg h, hrest, pyReplace, if_neg h, ih, hrest]
    cases more with
    | nil => simp [joinWith]
    | cons m ms =>
      simp only [joinWith_cons₂, List.cons_append, List.append_assoc]

theorem splitOnPat_head_initial (pat s chunk : List Char) (more : List (List Char))
    (h : splitOnPat pat s = chunk :: more) : ∃ t, s = chunk ++ t := by
  induction s using splitOnPat.induct pat generalizing chunk more with
  | case1 =>
    simp only [splitOnPat, List.cons.injEq] at h
    exact ⟨[], by simp [← h.1]⟩
  | case2 c rest hc ih =>
    rw [splitOnPat, if_pos hc] at h
    injection h with h1 h2
    exact ⟨c :: rest, by simp [← h1]⟩
  | case3 c rest hc hrest ih => exact absurd hrest (splitOnPat_ne_nil pat rest)
  | case4 c rest hc ch m hrest ih =>
    rw [splitOnPat, if_neg hc, hrest] at h
    injection h with h1 h2
    obtain ⟨t, ht⟩ := ih ch m hrest
    exact ⟨t, by simp [← h1, ht]⟩

theorem splitOnPat_chunks_no_occurrence (pat s : List Char) (hne : pat ≠ []) :
    ∀ chunk ∈ splitOnPat pat s, containsSub pat chunk = false := by
  induction s using splitOnPat.induct pat with
  | case1 =>
    intro chunk hc
    simp only [splitOnPat, List.mem_singleton] at hc
    subst hc
    cases pat with
    | nil => exact absurd rfl hne
    | cons p ps => simp [containsSub, listPref]
  | case2 c rest hc ih =>
    intro chunk hmem
    rw [splitOnPat, if_pos hc] at hmem
    rcases List.mem_cons.1 hmem with h | h
    · subst h
      cases pat with
      | nil => exact absurd rfl hne
      | cons p ps => simp [containsSub, listPref]
    · exact ih chunk h
  | case3 c rest hc hrest ih => exact absurd hrest (splitOnPat_ne_nil pat rest)
  | case4 c rest hc ch m hrest ih =>
    intro chunk hmem
    rw [splitOnPat, if_neg hc, hrest] at hmem
    rw [hrest] at ih
    rcases List.mem_cons.1 hmem with h | h
    · subst h
      by_contra hocc
      rw [Bool.not_eq_false, containsSub_iff] at hocc
      obtain ⟨l, r, hlr⟩ := hocc
      cases l with
      | nil =>
        -- an occurrence at the head of `c :: ch` would have matched here
        obtain ⟨t, ht⟩ := splitOnPat_head_initial pat rest ch m hrest
        simp only [List.nil_append] at hlr
        apply hc
        refine ⟨hne, (listPref_iff pat (c :: rest)).2 ⟨r ++ t, ?_⟩⟩
        rw [ht, ← List.append_assoc, ← hlr]
        rfl
      | cons b l =>
        injection hlr with h1 h2
        have : containsSub pat ch = true :=
          (containsSub_iff pat ch).2 ⟨l, r, h2⟩
        have := ih ch (List.mem_cons_self ch m)
        simp_all
    · exact ih chunk (List.mem_cons_of_mem ch h)

/-! ## Claim C3 — the reference date is fixed inside `is_past` -/

/-- C3: `is_past` compares every date string against the fixed reference date
2026-05-01 hardcoded inside the function (the `datetime.now()` path is
disabled), so its result on any input is identical across any two runs,
whatever the actual current date is; no reference-date parameter influences
the classification. -/
theorem is_past_ignores_clock :
    ∀ (now₁ now₂ : PyDate) (s : String),
      is_past_run now₁ s = is_past_run now₂ s ∧
      is_past_run now₁ s = is_past_core ⟨2026, 5, 1⟩ s :=
  fun _ _ _ => ⟨rfl, rfl⟩

/-! ## Claim C5 — full-date classification is strict `<` on calendar dates -/

/-- C5: on any date string whose prefix matches the full-date pattern and
parses to a calendar date `(y, m, d)`, and for any reference date, the
classifier returns a boolean that is `true` iff the parsed date is strictly
earlier (lexicographically on year, month, day) than the reference date; in
particular a date equal to the reference date is classified as not past. -/
theorem is_past_full_date_strict (today : PyDate) (s : String) (y m d : Nat)
    (hm : matchFullDate s.data = some (y, m, d)) (hv : validDate y m d) :
    is_past_core today s = .ok (dateLt ⟨y, m, d⟩ today) ∧
    (dateLt ⟨y, m, d⟩ today = true ↔
      (y < today.year ∨ (y = today.year ∧
        (m < today.month ∨ (m = today.month ∧ d < today.day))))) ∧
    (today = ⟨y, m, d⟩ → is_past_core today s = .ok false) := by
  refine ⟨?_, ?_, ?_⟩
  · unfold is_past_core
    rw [hm]
    simp [hv]
  · simp [dateLt]
  · intro ht
    subst ht
    unfold is_past_core
    rw [hm]
    simp [hv, dateLt]

/-- Witness for C5 at the spec's own example: reference 2026-05-01 and the
date string `"2026年4月30日"`, which classifies as past. -/
theorem is_past_full_date_strict_witness :
    matchFullDate "2026年4月30日".data = some (2026, 4, 30) ∧
    validDate 2026 4 30 ∧
    is_past_core ⟨2026, 5, 1⟩ "2026年4月30日" = .ok true := by
  refine ⟨by decide, by decide, ?_⟩
  have h := (is_past_full_date_strict ⟨2026, 5, 1⟩ "2026年4月30日" 2026 4 30
    (by decide) (by decide)).1
  rw [h]
  decide

/-! ## Claim C6 — month-only classification compares at month resolution -/

/-- C6: on any date string that does not match the full-date pattern but whose
prefix matches the year-month pattern with components `(y, m)` in `strptime`
range, and for any reference date, the classifier returns a boolean that is
`true` iff `y*100 + m` is strictly below the same composite of the reference
date; a month-only entry in the reference month is classified as not past. -/
theorem is_past_month_only_composite (today : PyDate) (s : String) (y m : Nat)
    (hfull : matchFullDate s.data = none)
    (hm : matchMonthOnly s.data = some (y, m)) (hv : validMonth y m) :
    is_past_core today s =
      .ok (decide (y * 100 + m < today.year * 100 + today.month)) ∧
    (y = today.year ∧ m = today.month → is_past_core today s = .ok false) := by
  constructor
  · unfold is_past_core
    rw [hfull, hm]
    simp [hv]
  · rintro ⟨rfl, rfl⟩
    unfold is_past_core
    rw [hfull, hm]
    simp [hv]

/-- Witness for C6 at the spec's own example: reference 2026-05-01 and the
string `"2026年5月"` — same month as the reference, hence not past. -/
theorem is_past_month_only_composite_witness :
    matchFullDate "2026年5月".data = none ∧
    matchMonthOnly "2026年5月".data = some (2026, 5) ∧
    validMonth 2026 5 ∧
    is_past_core ⟨2026, 5, 1⟩ "2026年5月" = .ok false := by
  refine ⟨by decide, by decide, by decide, ?_⟩
  exact (is_past_month_only_composite ⟨2026, 5, 1⟩ "2026年5月" 2026 5
    (by decide) (by decide) (by decide)).2 ⟨rfl, rfl⟩

/-! ## Claim C7 — when `is_past` raises the format error (corrected) -/

/-- Counterexample to C7 as stated: `"2026年13月"` matches the year-month
pattern (its month group is the two digits `13`), yet `is_past` does not
return a boolean — `strptime` raises on the out-of-range month, and the
raised error is not the `FormatError` carrying the raw string. -/
theorem is_past_match_can_still_raise :
    matchMonthOnly "2026年13月".data = some (2026, 13) ∧
    is_past "2026年13月" = .error .strptimeError := by
  constructor
  · decide
  · decide

/-- C7 (amended): `is_past` raises the `FormatError` carrying the offending
raw string exactly when the input matches neither anchored pattern.  (A
pattern match does not guarantee a boolean return: out-of-range components
raise a different `ValueError` from `strptime`, cf. the counterexample.) -/
theorem is_past_format_error_iff (s : String) :
    is_past s = .error (.formatError s) ↔
      matchFullDate s.data = none ∧ matchMonthOnly s.data = none := by
  unfold is_past is_past_core
  cases hf : matchFullDate s.data with
  | some v =>
    obtain ⟨y, m, d⟩ := v
    by_cases hv : validDate y m d <;> simp [hv]
  | none =>
    cases hmo : matchMonthOnly s.data with
    | some v =>
      obtain ⟨y, m⟩ := v
      by_cases hv : validMonth y m <;> simp [hv]
    | none => simp

/-! ## Claim C2 — non-2xx transport outcome (corrected) -/

/-- Counterexample to C2 as stated: on a 404 response whose body even lists a
qualifying item, `get_books` does not fail with a distinguishable query
error — it returns `None` (app.py line 97), the very same outcome as an
ordinary zero-page "no candidate" response. -/
theorem get_books_non_2xx_not_distinguishable :
    get_books ⟨404, some 1, some [itemB]⟩ "Foonum" "3" 0 = .ok none ∧
    get_books ⟨200, some 0, some []⟩ "Foonum" "3" 0 = .ok none := by
  constructor
  · decide
  · decide

/-- C2 (amended): for every series whose catalog query receives a non-200
HTTP status, `get_books` returns `None` — an outcome indistinguishable from
"no candidate found"; no error is raised for the caller to tell the two
apart. -/
theorem get_books_non_2xx_returns_none (resp : CatalogResponse)
    (st num : String) (no : Nat) (h : resp.status_code ≠ 200) :
    get_books resp st num no = .ok none := by
  unfold get_books
  rw [if_pos h]

/-- Witness for the amended C2 at a concrete 500 response. -/
theorem get_books_non_2xx_returns_none_witness :
    (500 ≠ 200) ∧
    get_books ⟨500, some 3, some [itemA, itemB]⟩ "Foonum" "3" 0 = .ok none :=
  ⟨by decide,
   get_books_non_2xx_returns_none ⟨500, some 3, some [itemA, itemB]⟩
     "Foonum" "3" 0 (by decide)⟩

/-! ## Claim C4 — empty current volume (corrected) -/

/-- Counterexample to C4 as stated: with an empty `currentVolume` the series
is not evaluated with `nextVolume = 1`; `int("")` raises `ValueError`
(app.py line 104), so `get_books` fails for that series. -/
theorem get_books_empty_volume_raises_concrete :
    get_books ⟨200, some 1, some [itemB]⟩ "Foonum" "" 0 = .error .intError := by
  decide

/-- C4 (amended): for every series whose `currentVolume` is the empty string,
and any successful response with a positive page count, the resolver raises
`ValueError` out of `int("")`; the series is reported as failed and skipped
by the run loop rather than being treated as volume 0. -/
theorem get_books_empty_volume_raises (resp : CatalogResponse) (st : String)
    (no : Nat) (h200 : resp.status_code = 200)
    (hpc : resp.pageCount.getD 1 ≥ 1) :
    get_books resp st "" no = .error .intError := by
  unfold get_books
  rw [if_neg (by simp [h200]), if_pos hpc]
  rfl

/-- Witness for the amended C4 at a concrete response. -/
theorem get_books_empty_volume_raises_witness :
    ((⟨200, some 1, some []⟩ : CatalogResponse).status_code = 200) ∧
    ((⟨200, some 1, some []⟩ : CatalogResponse).pageCount.getD 1 ≥ 1) ∧
    get_books ⟨200, some 1, some []⟩ "Foonum" "" 0 = .error .intError :=
  ⟨by decide, by decide,
   get_books_empty_volume_raises ⟨200, some 1, some []⟩ "Foonum" 0
     (by decide) (by decide)⟩

/-! ## Claim C8 — match-target construction and containment matching -/

/-- C8: `buildMatchTarget` replaces every occurrence (in the greedy
left-to-right decomposition, i.e. not only the first) of the placeholder
token `"num"` with the decimal string of `nextVolume`: the pattern splits
into chunks none of which contains the placeholder, with the placeholder
between consecutive chunks, and the target is the same chunks joined by the
decimal string instead.  And the containment test is true iff the built
target occurs in the catalog title as a contiguous substring. -/
theorem build_match_target_spec (pattern : String) (nextVolume : Int)
    (catalogTitle : String) :
    (pattern.data = joinWith "num".data (splitOnPat "num".data pattern.data) ∧
     (buildMatchTarget pattern nextVolume).data =
       joinWith (toString nextVolume).data (splitOnPat "num".data pattern.data) ∧
     ∀ c ∈ splitOnPat "num".data pattern.data,
       containsSub "num".data c = false) ∧
    (strContains catalogTitle (buildMatchTarget pattern nextVolume) = true ↔
      ∃ l r, catalogTitle.data =
        l ++ (buildMatchTarget pattern nextVolume).data ++ r) := by
  refine ⟨⟨(joinWith_splitOnPat "num".data pattern.data).symm, ?_, ?_⟩, ?_⟩
  · exact pyReplace_eq_joinWith "num".data (toString nextVolume).data pattern.data
  · exact splitOnPat_chunks_no_occurrence "num".data pattern.data (by decide)
  · exact containsSub_iff (buildMatchTarget pattern nextVolume).data
      catalogTitle.data

/-! ## Claim C1 — the resolver returns the first qualifying item -/

theorem scanBooks_eq_find (target vol : String) (books : List BookItem)
    (hparse : ∀ bi ∈ books, isOkResult (is_past bi.item.salesDate) = true) :
    scanBooks target vol books =
      .ok ((books.find? (isHit target)).map
        (fun bi => ⟨bi.item.title, vol, bi.item.isbn, bi.item.salesDate⟩)) := by
  induction books with
  | nil => rfl
  | cons bi rest ih =>
    have hbi := hparse bi (List.mem_cons_self bi rest)
    have hrest : ∀ b ∈ rest, isOkResult (is_past b.item.salesDate) = true :=
      fun b hb => hparse b (List.mem_cons_of_mem bi hb)
    cases hp : is_past bi.item.salesDate with
    | error e => simp [isOkResult, hp] at hbi
    | ok b =>
      cases b with
      | true =>
        cases hc : strContains bi.item.title target with
        | true =>
          simp [scanBooks, hp, hc, List.find?, isHit]
        | false =>
          simp [scanBooks, hp, hc, List.find?, isHit, ih hrest]
      | false =>
        simp [scanBooks, hp, List.find?, isHit, ih hrest]

theorem scanBooks_stops_at_hit (tgt vol : String) (q : BookItem)
    (hq : isHit tgt q = true) :
    ∀ (pre post₁ post₂ : List BookItem),
      scanBooks tgt vol (pre ++ q :: post₁) = scanBooks tgt vol (pre ++ q :: post₂) := by
  have hsplit : is_past q.item.salesDate = .ok true ∧
      strContains q.item.title tgt = true := by
    unfold isHit at hq
    cases hp : is_past q.item.salesDate with
    | error e => rw [hp] at hq; simp at hq
    | ok b =>
      cases b with
      | true => rw [hp] at hq; exact ⟨rfl, hq⟩
      | false => rw [hp] at hq; simp at hq
  intro pre
  induction pre with
  | nil =>
    intro post₁ post₂
    simp [scanBooks, hsplit.1, hsplit.2]
  | cons p ps ih =>
    intro post₁ post₂
    cases hp : is_past p.item.salesDate with
    | error e => simp [scanBooks, hp]
    | ok b =>
      cases b with
      | true =>
        cases hc : strContains p.item.title tgt with
        | true => simp [scanBooks, hp, hc]
        | false => simp [scanBooks, hp, hc, ih post₁ post₂]
      | false => simp [scanBooks, hp, ih post₁ post₂]

/-- C1: for every series and every successful catalog response whose listed
items all carry classifiable dates, `get_books` returns the first item, in
response order, that classifies as past and whose title contains the match
target, as a candidate whose `volume` is the decimal string of
`currentVolume + 1`; it returns `None` when the page count is below one or
when no item qualifies; and the scan never looks past the first qualifying
item (the result is unchanged under any replacement of the tail after it). -/
theorem get_books_first_qualifying (resp : CatalogResponse) (st num : String)
    (no : Nat) (n : Int) (h200 : resp.status_code = 200)
    (hnum : pyInt num = .ok n)
    (hparse : ∀ bi ∈ resp.items.getD [],
      isOkResult (is_past bi.item.salesDate) = true) :
    (resp.pageCount.getD 1 < 1 → get_books resp st num no = .ok none) ∧
    (resp.pageCount.getD 1 ≥ 1 →
      get_books resp st num no =
        .ok (((resp.items.getD []).find?
            (isHit (buildMatchTarget st (n + 1)))).map
          (fun bi =>
            ⟨bi.item.title, toString (n + 1), bi.item.isbn, bi.item.salesDate⟩))) ∧
    (∀ (tgt vol : String) (pre post₁ post₂ : List BookItem) (q : BookItem),
      isHit tgt q = true →
      scanBooks tgt vol (pre ++ q :: post₁) = scanBooks tgt vol (pre ++ q :: post₂)) := by
  refine ⟨?_, ?_, ?_⟩
  · intro hlt
    unfold get_books
    rw [if_neg (by simp [h200]), if_neg (by omega)]
  · intro hge
    unfold get_books
    rw [if_neg (by simp [h200]), if_pos hge, hnum]
    exact scanBooks_eq_find (buildMatchTarget st (n + 1)) (toString (n + 1))
      (resp.items.getD []) hparse
  · intro tgt vol pre post₁ post₂ q hq
    exact scanBooks_stops_at_hit tgt vol q hq pre post₁ post₂

/-- Witness for C1 at the spec §8 property-5 scenario: two past items, the
first not containing `"Foo4"`, the second (`itemB`) containing it — the
resolver returns `itemB`'s data with volume `"4"`. -/
theorem get_books_first_qualifying_witness :
    pyInt "3" = .ok 3 ∧
    get_books respW "Foonum" "3" 0 =
      .ok (some ⟨"Foo4", "4", "isbnB", "2020年1月1日"⟩) := by
  have h := (get_books_first_qualifying respW "Foonum" "3" 0 3
    (by decide) (by decide) (by decide)).2.1 (by decide)
  refine ⟨by decide, ?_⟩
  rw [h]
  have ht : buildMatchTarget "Foonum" (3 + 1) = "Foo4" := by
    simp [buildMatchTarget, pyReplace, listPref]
    decide
  rw [ht]
  decide

/-! ## Claim C9 — the run isolates per-series failures -/

theorem searchLoop_append (fetch : Nat → CatalogResponse)
    (l₁ l₂ : List SeriesItem) :
    ∀ i, searchLoop fetch i (l₁ ++ l₂) =
      ⟨(searchLoop fetch i l₁).results ++ (searchLoop fetch (i + l₁.length) l₂).results,
       (searchLoop fetch i l₁).errors ++ (searchLoop fetch (i + l₁.length) l₂).errors,
       (searchLoop fetch i l₁).attempts ++ (searchLoop fetch (i + l₁.length) l₂).attempts⟩ := by
  induction l₁ with
  | nil => intro i; simp [searchLoop]
  | cons x xs ih =>
    intro i
    have harith : i + 1 + xs.length = i + (xs.length + 1) := by omega
    cases hg : get_books (fetch i) x.search_title x.number 0 with
    | error e => simp [searchLoop, hg, ih (i + 1), harith]
    | ok o =>
      cases o with
      | none => simp [searchLoop, hg, ih (i + 1), harith]
      | some r => simp [searchLoop, hg, ih (i + 1), harith]

theorem searchLoop_attempts (fetch : Nat → CatalogResponse)
    (l : List SeriesItem) :
    ∀ i, (searchLoop fetch i l).attempts = idxRange i l.length := by
  induction l with
  | nil => intro i; rfl
  | cons x xs ih =>
    intro i
    cases hg : get_books (fetch i) x.search_title x.number 0 with
    | error e => simp [searchLoop, hg, idxRange, ih (i + 1)]
    | ok o =>
      cases o with
      | none => simp [searchLoop, hg, idxRange, ih (i + 1)]
      | some r => simp [searchLoop, hg, idxRange, ih (i + 1)]

theorem searchLoop_results_sound (fetch : Nat → CatalogResponse)
    (l : List SeriesItem) :
    ∀ i, ∀ e ∈ (searchLoop fetch i l).results,
      ∃ j item r, e.original_index = i + j ∧ l.get? j = some item ∧
        get_books (fetch (i + j)) item.search_title item.number 0 = .ok (some r) ∧
        e = mkEntry (i + j) item r := by
  induction l with
  | nil => intro i e he; simp [searchLoop] at he
  | cons x xs ih =>
    intro i e he
    have step : ∀ (he' : e ∈ (searchLoop fetch (i + 1) xs).results),
        ∃ j item r, e.original_index = i + j ∧ (x :: xs).get? j = some item ∧
          get_books (fetch (i + j)) item.search_title item.number 0 = .ok (some r) ∧
          e = mkEntry (i + j) item r := by
      intro he'
      obtain ⟨j, item, r, h1, h2, h3, h4⟩ := ih (i + 1) e he'
      have hj : i + 1 + j = i + (j + 1) := by omega
      rw [hj] at h1 h3 h4
      exact ⟨j + 1, item, r, h1, by simpa using h2, h3, h4⟩
    cases hg : get_books (fetch i) x.search_title x.number 0 with
    | error er =>
      simp only [searchLoop, hg] at he
      exact step he
    | ok o =>
      cases o with
      | none =>
        simp only [searchLoop, hg] at he
        exact step he
      | some r =>
        simp only [searchLoop, hg] at he
        rcases List.mem_cons.1 he with rfl | he'
        · exact ⟨0, x, r, by simp [mkEntry], by simp, by simpa using hg, by simp⟩
        · exact step he'

theorem searchLoop_pairwise (fetch : Nat → CatalogResponse)
    (l : List SeriesItem) :
    ∀ i, (searchLoop fetch i l).results.Pairwise
      (fun a b => a.original_index < b.original_index) := by
  induction l with
  | nil => intro i; simp [searchLoop]
  | cons x xs ih =>
    intro i
    have hlb : ∀ e ∈ (searchLoop fetch (i + 1) xs).results,
        i + 1 ≤ e.original_index := by
      intro e he
      obtain ⟨j, item, r, h1, _⟩ := searchLoop_results_sound fetch xs (i + 1) e he
      omega
    cases hg : get_books (fetch i) x.search_title x.number 0 with
    | error e => simpa [searchLoop, hg] using ih (i + 1)
    | ok o =>
      cases o with
      | none => simpa [searchLoop, hg] using ih (i + 1)
      | some r =>
        simp only [searchLoop, hg, List.pairwise_cons]
        refine ⟨fun e he => ?_, ih (i + 1)⟩
        have := hlb e he
        simp only [mkEntry]
        omega

/-- C9: for every input sequence of tracked series with one series whose
resolution raises, the run attempts every index exactly once in input order,
omits the failing series from the results while keeping the results of the
series before and after it, reports the failing index on the error channel,
keeps the result entries in strictly increasing input order, and each entry
carries the original index of the series it was resolved from. -/
theorem run_isolates_failures (fetch : Nat → CatalogResponse)
    (pre post : List SeriesItem) (bad : SeriesItem) (e : PyErr)
    (herr : get_books (fetch pre.length) bad.search_title bad.number 0 = .error e) :
    (runSearch fetch (pre ++ bad :: post)).attempts =
      idxRange 0 (pre ++ bad :: post).length ∧
    (runSearch fetch (pre ++ bad :: post)).results =
      (searchLoop fetch 0 pre).results ++
        (searchLoop fetch (pre.length + 1) post).results ∧
    (runSearch fetch (pre ++ bad :: post)).errors =
      (searchLoop fetch 0 pre).errors ++
        pre.length :: (searchLoop fetch (pre.length + 1) post).errors ∧
    (runSearch fetch (pre ++ bad :: post)).results.Pairwise
      (fun a b => a.original_index < b.original_index) ∧
    (∀ en ∈ (runSearch fetch (pre ++ bad :: post)).results, ∃ item r,
      (pre ++ bad :: post).get? en.original_index = some item ∧
      get_books (fetch en.original_index) item.search_title item.number 0 =
        .ok (some r) ∧
      en = mkEntry en.original_index item r) := by
  have hmid : searchLoop fetch pre.length (bad :: post) =
      ⟨(searchLoop fetch (pre.length + 1) post).results,
       pre.length :: (searchLoop fetch (pre.length + 1) post).errors,
       pre.length :: (searchLoop fetch (pre.length + 1) post).attempts⟩ := by
    simp [searchLoop, herr]
  have hsplit := searchLoop_append fetch pre (bad :: post) 0
  rw [Nat.zero_add, hmid] at hsplit
  refine ⟨?_, ?_, ?_, ?_, ?_⟩
  · exact searchLoop_attempts fetch (pre ++ bad :: post) 0
  · rw [runSearch, hsplit]
  · rw [runSearch, hsplit]
  · exact searchLoop_pairwise fetch (pre ++ bad :: post) 0
  · intro en hen
    obtain ⟨j, item, r, h1, h2, h3, h4⟩ :=
      searchLoop_results_sound fetch (pre ++ bad :: post) 0 en hen
    rw [Nat.zero_add] at h1 h3 h4
    subst h1
    exact ⟨item, r, h2, h3, h4⟩

/-- Witness for C9 at the spec §8 property-7 scenario: three series, the
second of which fails (its `int("")` raises); the run attempts 0, 1, 2 in
order, reports index 1, and keeps the results of indices 0 and 2. -/
theorem run_isolates_failures_witness :
    (runSearch fetchW dataW).results =
      (searchLoop fetchW 0 [⟨"Foo", "Foonum", "3"⟩]).results ++
        (searchLoop fetchW 2 [⟨"Baz", "Baznum", "1"⟩]).results ∧
    (runSearch fetchW dataW).errors =
      (searchLoop fetchW 0 [⟨"Foo", "Foonum", "3"⟩]).errors ++
        1 :: (searchLoop fetchW 2 [⟨"Baz", "Baznum", "1"⟩]).errors ∧
    (runSearch fetchW dataW).attempts = idxRange 0 3 := by
  have h := run_isolates_failures fetchW [⟨"Foo", "Foonum", "3"⟩]
    [⟨"Baz", "Baznum", "1"⟩] ⟨"Bar", "Barnum", ""⟩ .intError (by decide)
  exact ⟨h.2.1, h.2.2.1, h.1⟩

/-! ## Claim C10 — write-back writes exactly the diffs and is idempotent -/

theorem update_eq_expected (data : List SeriesItem) (results : List ResultEntry)
    (hb : ∀ r ∈ results, r.original_index < data.length) :
    update_spreadsheet data results = .ok (expectedWrites data results) := by
  induction results with
  | nil => rfl
  | cons r rs ih =>
    have hr := hb r (List.mem_cons_self r rs)
    have hget : data[r.original_index]? =
        some (data[r.original_index]) := List.getElem?_eq_getElem hr
    have ihr := ih (fun q hq => hb q (List.mem_cons_of_mem r hq))
    by_cases hv : r.volume ≠ (data[r.original_index]).number
    · have hch : volumeChanged data r = true := by
        simp [volumeChanged, hget, hv]
      simp [update_spreadsheet, hget, ihr, hv, expectedWrites, hch]
    · have hch : volumeChanged data r = false := by
        simp only [Decidable.not_not] at hv
        simp [volumeChanged, hget, hv]
      simp [update_spreadsheet, hget, ihr, hv, expectedWrites, hch]

theorem update_zero_writes (data : List SeriesItem) (results : List ResultEntry)
    (h : ∀ r ∈ results, ∃ item,
      data[r.original_index]? = some item ∧ item.number = r.volume) :
    update_spreadsheet data results = .ok [] := by
  induction results with
  | nil => rfl
  | cons r rs ih =>
    obtain ⟨item, hget, heq⟩ := h r (List.mem_cons_self r rs)
    have ihr := ih (fun q hq => h q (List.mem_cons_of_mem r hq))
    simp [update_spreadsheet, hget, ihr, heq]

theorem setVolume_length (d : List SeriesItem) :
    ∀ n v, (setVolume d n v).length = d.length := by
  induction d with
  | nil => intro n v; rfl
  | cons x xs ih =>
    intro n v
    cases n with
    | zero => rfl
    | succ n => simp [setVolume, ih n v]

theorem setVolume_getElem?_eq (d : List SeriesItem) :
    ∀ n v, (setVolume d n v)[n]? =
      d[n]?.map (fun x => ⟨x.title, x.search_title, v⟩) := by
  induction d with
  | nil => intro n v; cases n <;> rfl
  | cons x xs ih =>
    intro n v
    cases n with
    | zero => simp [setVolume]
    | succ n => simpa [setVolume] using ih n v

theorem setVolume_getElem?_ne (d : List SeriesItem) :
    ∀ n v j, j ≠ n → (setVolume d n v)[j]? = d[j]? := by
  induction d with
  | nil => intro n v j _; cases n <;> rfl
  | cons x xs ih =>
    intro n v j hj
    cases n with
    | zero =>
      cases j with
      | zero => exact absurd rfl hj
      | succ j => simp [setVolume]
    | succ n =>
      cases j with
      | zero => simp [setVolume]
      | succ j => simpa [setVolume] using ih n v j (by omega)

theorem applyWrites_cons (d : List SeriesItem) (w : CellWrite)
    (ws : List CellWrite) :
    applyWrites d (w :: ws) =
      applyWrites (if w.col = 3 then setVolume d (w.row - 2) w.value else d) ws := rfl

theorem applyWrites_untouched (ws : List CellWrite) :
    ∀ (d : List SeriesItem) (j : Nat),
      (∀ w ∈ ws, w.col = 3 → w.row - 2 ≠ j) →
      (applyWrites d ws)[j]? = d[j]? := by
  induction ws with
  | nil => intro d j _; rfl
  | cons w ws ih =>
    intro d j h
    have hstep : ((if w.col = 3 then setVolume d (w.row - 2) w.value else d))[j]?
        = d[j]? := by
      by_cases hc : w.col = 3
      · rw [if_pos hc]
        exact setVolume_getElem?_ne d (w.row - 2) w.value j
          (fun hj => h w (List.mem_cons_self w ws) hc (by omega))
      · rw [if_neg hc]
    calc (applyWrites d (w :: ws))[j]?
        = (applyWrites (if w.col = 3 then setVolume d (w.row - 2) w.value else d) ws)[j]? := rfl
      _ = _ := by
          rw [ih _ j (fun w' hw' => h w' (List.mem_cons_of_mem w hw')), hstep]

theorem applyWrites_length (ws : List CellWrite) :
    ∀ d : List SeriesItem, (applyWrites d ws).length = d.length := by
  induction ws with
  | nil => intro d; rfl
  | cons w ws ih =>
    intro d
    calc (applyWrites d (w :: ws)).length
        = (applyWrites (if w.col = 3 then setVolume d (w.row - 2) w.value else d) ws).length := rfl
      _ = d.length := by
          rw [ih]
          by_cases hc : w.col = 3
          · rw [if_pos hc, setVolume_length]
          · rw [if_neg hc]

theorem expectedWrites_mem (data : List SeriesItem) (rs : List ResultEntry)
    (w : CellWrite) (hw : w ∈ expectedWrites data rs) :
    ∃ r ∈ rs, w.row = r.original_index + 2 ∧ w.col = 3 := by
  unfold expectedWrites at hw
  obtain ⟨r, hr, rfl⟩ := List.mem_map.1 hw
  exact ⟨r, (List.mem_filter.1 hr).1, rfl, rfl⟩

theorem volumeChanged_congr (d d' : List SeriesItem) (r : ResultEntry)
    (h : d'[r.original_index]? = d[r.original_index]?) :
    volumeChanged d' r = volumeChanged d r := by
  unfold volumeChanged
  rw [h]

theorem expectedWrites_congr (d d' : List SeriesItem) (rs : List ResultEntry)
    (h : ∀ r ∈ rs, d'[r.original_index]? = d[r.original_index]?) :
    expectedWrites d' rs = expectedWrites d rs := by
  unfold expectedWrites
  rw [List.filter_congr (fun r hr => volumeChanged_congr d d' r (h r hr))]

theorem applyWrites_fixes (results : List ResultEntry) :
    ∀ (data : List SeriesItem),
      (∀ r ∈ results, r.original_index < data.length) →
      results.Pairwise (fun a b => a.original_index ≠ b.original_index) →
      ∀ r ∈ results, ∃ item,
        (applyWrites data (expectedWrites data results))[r.original_index]? =
          some item ∧ item.number = r.volume := by
  induction results with
  | nil => intro data _ _ r hr; cases hr
  | cons r rs ih =>
    intro data hb hd
    obtain ⟨hne, hd'⟩ := List.pairwise_cons.1 hd
    have hr0 : r.original_index < data.length := hb r (List.mem_cons_self r rs)
    have hget : data[r.original_index]? =
        some (data[r.original_index]) := List.getElem?_eq_getElem hr0
    set item := data[r.original_index] with hitem
    set D : List SeriesItem :=
      if volumeChanged data r = true then
        setVolume data r.original_index r.volume
      else data with hD
    have hDlen : D.length = data.length := by
      rw [hD]
      by_cases hc : volumeChanged data r = true
      · rw [if_pos hc, setVolume_length]
      · rw [if_neg hc]
    have h1 : applyWrites data (expectedWrites data (r :: rs)) =
        applyWrites D (expectedWrites data rs) := by
      by_cases hc : volumeChanged data r = true
      · have hE : expectedWrites data (r :: rs) =
            (⟨r.original_index + 2, 3, r.volume⟩ : CellWrite) :: expectedWrites data rs := by
          simp [expectedWrites, hc]
        rw [hE, applyWrites_cons, hD, if_pos hc]
        simp
      · have hE : expectedWrites data (r :: rs) = expectedWrites data rs := by
          simp [expectedWrites, hc]
        rw [hE, hD, if_neg hc]
    have h2 : ∀ q ∈ rs, D[q.original_index]? = data[q.original_index]? := by
      intro q hq
      rw [hD]
      by_cases hc : volumeChanged data r = true
      · rw [if_pos hc]
        exact setVolume_getElem?_ne data r.original_index r.volume q.original_index
          (fun hj => hne q hq hj.symm)
      · rw [if_neg hc]
    have h3 : expectedWrites data rs = expectedWrites D rs :=
      (expectedWrites_congr data D rs h2).symm
    intro q hq
    rcases List.mem_cons.1 hq with rfl | hq'
    · -- the entry at the head: its own row ends at its resolved volume
      have hDget : ∃ it, D[q.original_index]? = some it ∧
          it.number = q.volume := by
        rw [hD]
        by_cases hc : volumeChanged data q = true
        · rw [if_pos hc, setVolume_getElem?_eq, hget]
          exact ⟨_, rfl, rfl⟩
        · rw [if_neg hc]
          refine ⟨item, hget, ?_⟩
          unfold volumeChanged at hc
          rw [hget] at hc
          have hq : q.volume = item.number := by simpa using hc
          exact hq.symm
      obtain ⟨it, hit, hnum⟩ := hDget
      refine ⟨it, ?_, hnum⟩
      rw [h1]
      rw [applyWrites_untouched (expectedWrites data rs) D q.original_index ?_, hit]
      intro w hw _
      obtain ⟨r', hr', hrow, _⟩ := expectedWrites_mem data rs w hw
      rw [hrow]
      intro hj
      exact hne r' hr' (by omega)
    · rw [h1, h3]
      exact ih D (fun p hp => hDlen ▸ hb p (List.mem_cons_of_mem r hp)) hd' q hq'

/-- C10: for every source table and result set with in-range, pairwise
distinct source indices, the update step issues exactly one write — to
column 3 of row `sourceIndex + 2` — for each entry whose resolved volume
differs (as a string) from the stored current volume, touches no other cell,
and is idempotent: running it again on the table with those writes applied
issues zero writes. -/
theorem update_writeback_diffs_and_idempotent (data : List SeriesItem)
    (results : List ResultEntry)
    (hb : ∀ r ∈ results, r.original_index < data.length)
    (hd : results.Pairwise (fun a b => a.original_index ≠ b.original_index)) :
    update_spreadsheet data results = .ok (expectedWrites data results) ∧
    update_spreadsheet (applyWrites data (expectedWrites data results)) results
      = .ok [] := by
  refine ⟨update_eq_expected data results hb, ?_⟩
  exact update_zero_writes _ results (applyWrites_fixes results data hb hd)

/-- Witness for C10 at the `dataW`/`resultsW` fixture: both updated rows
differ, so exactly the two expected writes are issued, and a second run
after applying them issues none. -/
theorem update_writeback_diffs_and_idempotent_witness :
    update_spreadsheet dataW resultsW = .ok [⟨2, 3, "4"⟩, ⟨4, 3, "2"⟩] ∧
    update_spreadsheet (applyWrites dataW (expectedWrites dataW resultsW))
      resultsW = .ok [] := by
  have h := update_writeback_diffs_and_idempotent dataW resultsW
    (by decide) (by decide)
  exact ⟨h.1.trans (by decide), h.2⟩

end MangaCheck
